import Mathlib

/-!
# Verification of the binance-portfolio-demo trading bot

Shallow embedding of the two Python source files of the repository:

* `trading_bot.py` — the mock-ledger variant (`MockFuturesBot.place_market_order`,
  `get_price`, `calculate_position_size`, CLI command loop);
* `my_trading_bot.py` — the direct-API variant (`FuturesBot.set_risk_management`,
  `calculate_position_size`, the `__main__` workflow).

Numeric values are embedded as rationals (`ℚ`); Python exceptions become an
explicit error type carried by `Except`.  External API calls
(`futures_create_order`, `futures_mark_price`, `futures_account_balance`) are
embedded as oracle arguments holding the value the call would return or the
exception it would raise, so that each function stays a pure function of its
inputs while following the Python control flow statement by statement.
-/

deriving instance DecidableEq for Except

namespace BinanceDemo

/-! Section: Python string primitives

`str.replace` (left-to-right, non-overlapping, for a non-empty pattern) and
`str.upper`, modelled structurally over the character list so that they
evaluate inside the kernel. -/

/-- Structural-recursion version of dropping the first n characters. -/
def strDrop : Nat → List Char → List Char
  | 0, s => s
  | _, [] => []
  | n + 1, _ :: rest => strDrop n rest

/-- Fuel-indexed worker for `str.replace`: at each position, if the (non-empty)
pattern starts here, emit the replacement and skip the pattern, else keep the
character.  Fuel `s.length` is enough for a non-empty pattern. -/
def pyReplaceAux (pat repl : List Char) : Nat → List Char → List Char
  | _, [] => []
  | 0, s => s
  | fuel + 1, c :: rest =>
    if pat.isPrefixOf (c :: rest) then
      repl ++ pyReplaceAux pat repl fuel (strDrop (pat.length - 1) rest)
    else
      c :: pyReplaceAux pat repl fuel rest

/-- Model of Python `s.replace(pat, repl)` for a non-empty pattern
(the sources only call `symbol.replace("USDT", "")`). -/
def pyReplace (s pat repl : String) : String :=
  ⟨pyReplaceAux pat.data repl.data s.data.length s.data⟩

/-- Model of Python `str.upper` on one ASCII character. -/
def pyCharUpper (c : Char) : Char :=
  if 'a' ≤ c ∧ c ≤ 'z' then Char.ofNat (c.toNat - 32) else c

/-- Model of Python `s.upper()` (ASCII). -/
def pyUpper (s : String) : String := ⟨s.data.map pyCharUpper⟩

/-! Section: Python rounding

`round(x, n)` in Python rounds half to even.  Over `ℚ` this is exact decimal
round-half-even. -/

/-- Round-half-even to an integer, as Python `round` does. -/
def pyRoundInt (q : ℚ) : ℤ :=
  if q - ⌊q⌋ < 1 / 2 then ⌊q⌋
  else if 1 / 2 < q - ⌊q⌋ then ⌊q⌋ + 1
  else if ⌊q⌋ % 2 = 0 then ⌊q⌋ else ⌊q⌋ + 1

/-- Model of Python `round(q, n)` for `n ≥ 0`. -/
def pyRound (n : ℕ) (q : ℚ) : ℚ := (pyRoundInt (q * 10 ^ n) : ℚ) / 10 ^ n

/-! Section: Errors

The exceptions the embedded code can raise or receive from the exchange
client.  `apiError` stands for the `python-binance` exception types
(`BinanceAPIException` / `BinanceOrderException`). -/

inductive PyError where
  | keyError : String → PyError
  | valueError : String → PyError
  | zeroDivisionError : PyError
  | apiError : String → PyError
deriving DecidableEq

/-! Section: The mock balance dict and price list (`trading_bot.py`)

A Python dict with string keys is embedded as an insertion-ordered
association list; `lookupK` is `d[k]` (as an `Option`), `getD` is
`d.get(k, 0)`, `setK` is `d[k] = v`. -/

/-- The persisted balance mapping of `MockFuturesBot` (`mock_balance.json`). -/
abbrev Balance := List (String × ℚ)

/-- Dict lookup: first binding of the key, if any. -/
def lookupK : Balance → String → Option ℚ
  | [], _ => none
  | (k', v) :: rest, k => if k' = k then some v else lookupK rest k

/-- Python `bal.get(k, 0)`. -/
def getD (bal : Balance) (k : String) : ℚ := (lookupK bal k).getD 0

/-- Python `bal[k] = v`: overwrite the first binding in place, or append. -/
def setK : Balance → String → ℚ → Balance
  | [], k, v => [(k, v)]
  | (k', v') :: rest, k, v =>
    if k' = k then (k, v) :: rest else (k', v') :: setK rest k v

/-- The initial contents `{"USDT": 1000.0, "BTC": 0.0, "ETH": 0.0}` that
`MockFuturesBot.__init__` writes to `mock_balance.json`. -/
def INITIAL_BALANCE : Balance := [("USDT", 1000), ("BTC", 0), ("ETH", 0)]

/-- The read-only reference price list written to `mock_prices.json`. -/
def DEFAULT_PRICES : List (String × ℚ) :=
  [("BTCUSDT", 68000), ("ETHUSDT", 3200), ("BNBUSDT", 560)]

/-- Model of `MockFuturesBot.get_price`: scan the price list for
`p["symbol"] == symbol.upper()`; raise `ValueError` when not found. -/
def get_price : List (String × ℚ) → String → Except PyError ℚ
  | [], symbol => .error (.valueError ("Symbol " ++ symbol ++ " not found"))
  | (s, p) :: rest, symbol =>
    if s = pyUpper symbol then .ok p else get_price rest symbol

/-- The dict returned by a successful `MockFuturesBot.place_market_order`
(the `timestamp` field is omitted: it is wall-clock time). -/
structure Fill where
  symbol : String
  side : String
  amount : ℚ
  price : ℚ
deriving DecidableEq

/-- Model of `MockFuturesBot.place_market_order`, statement by statement.

The Python function loads the balance dict, computes
`base = symbol.replace("USDT", "")`, mutates the in-memory dict on the valid
branches, and calls `self._save_balance(bal)` only after a branch completed
without raising; every `raise` leaves the persisted file untouched.  The
embedding therefore returns `.ok (newBalance, fill)` exactly when the Python
call saves, and `.error e` for the exception `e` otherwise.  Dict access
`bal["USDT"]` raises `KeyError` on a missing key, while `bal.get(base, 0)`
defaults to `0`; both are modelled faithfully, including the mutation order
of the SELL branch (`bal["USDT"] += price * amount` before
`bal[base] -= amount`). -/
def place_market_order (prices : List (String × ℚ)) (bal : Balance)
    (symbol side : String) (amount : ℚ) : Except PyError (Balance × Fill) :=
  match get_price prices symbol with
  | .error e => .error e
  | .ok price =>
    let base := pyReplace symbol "USDT" ""
    if side = "BUY" then
      let cost := price * amount
      match lookupK bal "USDT" with
      | none => .error (.keyError "USDT")
      | some u =>
        if cost ≤ u then
          let bal1 := setK bal "USDT" (u - cost)
          let bal2 := setK bal1 base (getD bal1 base + amount)
          .ok (bal2, ⟨symbol, side, amount, price⟩)
        else .error (.valueError "Not enough USDT balance.")
    else if side = "SELL" then
      if amount ≤ getD bal base then
        match lookupK bal "USDT" with
        | none => .error (.keyError "USDT")
        | some u =>
          let bal1 := setK bal "USDT" (u + price * amount)
          match lookupK bal1 base with
          | none => .error (.keyError base)
          | some b1 =>
            .ok (setK bal1 base (b1 - amount), ⟨symbol, side, amount, price⟩)
      else .error (.valueError ("Not enough " ++ base ++ " balance."))
    else .error (.valueError "Invalid side. Use BUY or SELL.")

/-- The balance file contents after a call: the new dict when the call saved,
the old dict when it raised (the single `_save_balance` sits after both
branches). -/
def persistedAfter (bal : Balance) (r : Except PyError (Balance × Fill)) : Balance :=
  match r with
  | .ok (b, _) => b
  | .error _ => bal

/-- Holds when a call raised some Python `ValueError` (whatever its
message). -/
def isValueError (r : Except PyError (Balance × Fill)) : Prop :=
  match r with
  | .error (.valueError _) => True
  | _ => False

/-- One CLI `buy`/`sell` command against the persisted ledger:
`(symbol, side, amount)`. -/
abbrev LedgerOp := String × String × ℚ

/-- Run one ledger operation; a raising call leaves the file as it was. -/
def stepLedger (prices : List (String × ℚ)) (bal : Balance) (op : LedgerOp) : Balance :=
  persistedAfter bal (place_market_order prices bal op.1 op.2.1 op.2.2)

/-- Run a sequence of CLI `buy`/`sell` commands against the persisted ledger. -/
def runOps (prices : List (String × ℚ)) : Balance → List LedgerOp → Balance
  | bal, [] => bal
  | bal, op :: rest => runOps prices (stepLedger prices bal op) rest

/-! Section: `my_trading_bot.py`: order executor and workflow

The configuration constants of its CONFIGURATION SECTION. -/

def SYMBOL : String := "BTCUSDT"

def RISK_PERCENT : ℚ := 1

def STOP_LOSS_PCT : ℚ := 1 / 100

def TAKE_PROFIT_PCT : ℚ := 2 / 100

def LEVERAGE : ℚ := 10

/-- An exchange-assigned order identifier standing for the order dict a
successful `futures_create_order` returns. -/
abbrev OrderResult := ℕ

/-- One `futures_create_order` request built by `set_risk_management`. -/
structure ExitRequest where
  symbol : String
  side : String
  otype : String
  stopPrice : ℚ
  closePosition : Bool
  reduceOnly : Bool
deriving DecidableEq

/-- Model of `FuturesBot.set_risk_management`, with the two `futures_create_order`
calls embedded as oracles `slResp`/`tpResp` (`.ok` a result, `.error` a raised
`python-binance` exception).  Both calls sit inside one `try` block whose
`except` returns `None`; the first component of the result is the list of
requests actually submitted before the function returned, the second is the
Python return value (`none` for `None`). -/
def set_risk_management (symbol entry_side : String)
    (stop_loss_price take_profit_price : ℚ)
    (slResp tpResp : Except PyError OrderResult) :
    List ExitRequest × Option (OrderResult × OrderResult) :=
  let exit_side := if entry_side = "BUY" then "SELL" else "BUY"
  let slReq : ExitRequest :=
    ⟨symbol, exit_side, "STOP_MARKET", pyRound 2 stop_loss_price, true, true⟩
  match slResp with
  | .error _ => ([slReq], none)
  | .ok sl_order =>
    let tpReq : ExitRequest :=
      ⟨symbol, exit_side, "STOP_MARKET", pyRound 2 take_profit_price, true, true⟩
    match tpResp with
    | .error _ => ([slReq, tpReq], none)
    | .ok tp_order => ([slReq, tpReq], some (sl_order, tp_order))

/-- Model of `calculate_position_size` of `my_trading_bot.py`.  `balance` is what
`bot.get_balance()` returns (`none` when that helper swallowed an exception),
`markPrice` what `bot.client.futures_mark_price` yields or raises.  The
quantity is `round(qty, 3)`; a zero `stop_distance` raises
`ZeroDivisionError`. -/
def calculate_position_size_my (balance : Option ℚ)
    (markPrice : Except PyError ℚ)
    (risk_pct stop_loss_pct leverage : ℚ) : Except PyError (ℚ × ℚ) :=
  match balance with
  | none => .error (.valueError "Failed to get account balance")
  | some bal =>
    match markPrice with
    | .error e => .error e
    | .ok current_price =>
      let risk_amount := bal * (risk_pct / 100)
      let stop_distance := current_price * stop_loss_pct
      if stop_distance = 0 then .error .zeroDivisionError
      else .ok (pyRound 3 (risk_amount * leverage / stop_distance), current_price)

/-- Model of `calculate_position_size` of `trading_bot.py`, run against the mock bot:
`balance = bot.show_balance()` is the loaded dict, `usdt_balance` its
`.get("USDT", 0)`, the price comes from `MockFuturesBot.get_price`, and the
result is returned without any rounding. -/
def calculate_position_size_tb (prices : List (String × ℚ)) (bal : Balance)
    (symbol : String) (risk_pct stop_loss_pct leverage : ℚ) :
    Except PyError (ℚ × ℚ) :=
  let usdt_balance := getD bal "USDT"
  match get_price prices symbol with
  | .error e => .error e
  | .ok price =>
    let risk_amount := usdt_balance * (risk_pct / 100)
    if price * stop_loss_pct = 0 then .error .zeroDivisionError
    else .ok (risk_amount * leverage / (price * stop_loss_pct), price)

/-- Everything observable about one run of the `__main__` block of
`my_trading_bot.py`: the sizing outcome, the entry order as
`place_market_order` returned it (`none` both when the sizing step raised,
so the call was never reached, and when the order was rejected), how many
times `set_risk_management` was called, the exit requests submitted, and the
value `set_risk_management` returned. -/
structure MainRun where
  sizing : Except PyError (ℚ × ℚ)
  entryOrder : Option OrderResult
  srmCalls : ℕ
  exitRequests : List ExitRequest
  riskOrders : Option (OrderResult × OrderResult)
deriving DecidableEq

/-- The `__main__` workflow of `my_trading_bot.py` (steps 2–5; leverage
setup is a no-op on the model state).  `entryResp` is the oracle for the
entry `futures_create_order` call — `FuturesBot.place_market_order` catches
its exceptions and returns `None`.  The trade request constants are passed
in as parameters so that the workflow can be stated for any configuration;
the shipped configuration is the `SYMBOL`/`RISK_PERCENT`/… constants above.
The entry side is hard-coded to `SIDE_BUY` and the exit levels are
`entry_price * (1 - stop_loss_pct)` and `entry_price * (1 + take_profit_pct)`;
`set_risk_management` is reached only inside `if entry_order:`. -/
def mainRun (symbol : String) (risk_percent stop_loss_pct take_profit_pct leverage : ℚ)
    (balance : Option ℚ) (markPrice : Except PyError ℚ)
    (entryResp slResp tpResp : Except PyError OrderResult) : MainRun :=
  match calculate_position_size_my balance markPrice risk_percent stop_loss_pct leverage with
  | .error e => ⟨.error e, none, 0, [], none⟩
  | .ok qp =>
    match entryResp with
    | .error _ => ⟨.ok qp, none, 0, [], none⟩
    | .ok entry_order =>
      let entry_price := qp.2
      let stop_loss_price := entry_price * (1 - stop_loss_pct)
      let take_profit_price := entry_price * (1 + take_profit_pct)
      let r := set_risk_management symbol "BUY" stop_loss_price take_profit_price slResp tpResp
      ⟨.ok qp, some entry_order, 1, r.1, r.2⟩

/-- The spec's session states (§4.4), collapsed to the two terminal ones the
claims mention. -/
inductive SessionState where
  | Complete : SessionState
  | Failed : SessionState
deriving DecidableEq

/-- Follows the spec's state machine wording (§4.4): a sizing failure or an
entry rejection ends the session in `Failed`; a run that got its entry fill
proceeds through `ExitsSubmitted` towards the terminal success state. -/
def specSessionState (run : MainRun) : SessionState :=
  match run.sizing with
  | .error _ => .Failed
  | .ok _ =>
    match run.entryOrder with
    | none => .Failed
    | some _ => .Complete

/-- All values of an association list (a balance dict or price list) are
nonnegative. -/
def NonnegEntries (l : List (String × ℚ)) : Prop := ∀ kv ∈ l, 0 ≤ kv.2

/-! Section: Dictionary lemmas -/

theorem lookupK_setK (b : Balance) (k k' : String) (v : ℚ) :
    lookupK (setK b k v) k' = if k = k' then some v else lookupK b k' := by
  induction b with
  | nil =>
    by_cases h : k = k' <;> simp [setK, lookupK, h]
  | cons kv rest ih =>
    obtain ⟨k0, v0⟩ := kv
    by_cases h0 : k0 = k
    · subst h0
      by_cases h1 : k0 = k' <;> simp [setK, lookupK, h1]
    · by_cases h1 : k0 = k'
      · subst h1
        simp [setK, lookupK, h0]
        rw [if_neg (fun h => h0 h.symm)]
      · simp [setK, lookupK, h0, h1, ih]

theorem getD_setK (b : Balance) (k k' : String) (v : ℚ) :
    getD (setK b k v) k' = if k = k' then v else getD b k' := by
  by_cases h : k = k' <;> simp [getD, lookupK_setK, h]

theorem lookupK_mem {b : Balance} {k : String} {v : ℚ}
    (h : lookupK b k = some v) : (k, v) ∈ b := by
  induction b with
  | nil => simp [lookupK] at h
  | cons kv rest ih =>
    obtain ⟨k0, v0⟩ := kv
    by_cases h0 : k0 = k
    · subst h0
      simp [lookupK] at h
      simp [h]
    · simp [lookupK, h0] at h
      exact List.mem_cons_of_mem _ (ih h)

theorem getD_eq_of_lookupK {b : Balance} {k : String} {v : ℚ}
    (h : lookupK b k = some v) : getD b k = v := by
  simp [getD, h]

theorem getD_nonneg {b : Balance} (hb : NonnegEntries b) (k : String) :
    0 ≤ getD b k := by
  unfold getD
  cases hv : lookupK b k with
  | none => simp
  | some v => simpa using hb _ (lookupK_mem hv)

theorem nonnegEntries_setK {b : Balance} {v : ℚ} (hb : NonnegEntries b)
    (hv : 0 ≤ v) (k : String) : NonnegEntries (setK b k v) := by
  induction b with
  | nil =>
    intro kv hkv
    simp [setK] at hkv
    simp [hkv, hv]
  | cons kv0 rest ih =>
    obtain ⟨k0, v0⟩ := kv0
    have hrest : NonnegEntries rest := fun kv hkv => hb kv (List.mem_cons_of_mem _ hkv)
    by_cases h0 : k0 = k
    · subst h0
      intro kv hkv
      simp [setK] at hkv
      rcases hkv with h | h
      · simp [h, hv]
      · exact hb _ (List.mem_cons_of_mem _ h)
    · intro kv hkv
      simp [setK, h0] at hkv
      rcases hkv with h | h
      · exact hb _ (by simp [h])
      · exact ih hrest _ h

/-! Section: Price-list lemmas -/

theorem get_price_ok_mem {ps : List (String × ℚ)} {sym : String} {p : ℚ}
    (h : get_price ps sym = .ok p) : ∃ s, (s, p) ∈ ps := by
  induction ps with
  | nil => simp [get_price] at h
  | cons sp rest ih =>
    obtain ⟨s0, p0⟩ := sp
    by_cases h0 : s0 = pyUpper sym
    · simp [get_price, h0] at h
      exact ⟨s0, by simp [h]⟩
    · simp [get_price, h0] at h
      obtain ⟨s, hs⟩ := ih h
      exact ⟨s, List.mem_cons_of_mem _ hs⟩

theorem get_price_nonneg {ps : List (String × ℚ)} {sym : String} {p : ℚ}
    (hps : NonnegEntries ps) (h : get_price ps sym = .ok p) : 0 ≤ p := by
  obtain ⟨s, hs⟩ := get_price_ok_mem h
  simpa using hps _ hs

theorem get_price_error_shape {ps : List (String × ℚ)} {sym : String} {e : PyError}
    (h : get_price ps sym = .error e) : ∃ m, e = .valueError m := by
  induction ps with
  | nil =>
    simp [get_price] at h
    exact ⟨_, h.symm⟩
  | cons sp rest ih =>
    obtain ⟨s0, p0⟩ := sp
    by_cases h0 : s0 = pyUpper sym
    · simp [get_price, h0] at h
    · simp [get_price, h0] at h
      exact ih h

/-! Section: Behavioural lemmas about the mock order ledger -/

theorem persistedAfter_error (bal : Balance) (e : PyError) :
    persistedAfter bal (.error e) = bal := rfl

theorem persistedAfter_ok (bal bal2 : Balance) (f : Fill) :
    persistedAfter bal (.ok (bal2, f)) = bal2 := rfl

/-- Inversion for a successful BUY: the exact conditions the code checked and
the exact dict it saved. -/
theorem buy_ok_elim {prices : List (String × ℚ)} {bal : Balance}
    {symbol : String} {amount : ℚ} {bal2 : Balance} {f : Fill}
    (h : place_market_order prices bal symbol "BUY" amount = .ok (bal2, f)) :
    ∃ price u, get_price prices symbol = .ok price ∧
      lookupK bal "USDT" = some u ∧ price * amount ≤ u ∧
      bal2 = setK (setK bal "USDT" (u - price * amount))
          (pyReplace symbol "USDT" "")
          (getD (setK bal "USDT" (u - price * amount)) (pyReplace symbol "USDT" "") + amount) ∧
      f = ⟨symbol, "BUY", amount, price⟩ := by
  unfold place_market_order at h
  cases hgp : get_price prices symbol with
  | error e => rw [hgp] at h; cases h
  | ok price =>
    rw [hgp] at h
    simp only [] at h
    rw [if_true] at h
    cases hu : lookupK bal "USDT" with
    | none => rw [hu] at h; simp only [] at h; cases h
    | some u =>
      rw [hu] at h
      simp only [] at h
      by_cases hc : price * amount ≤ u
      · rw [if_pos hc] at h
        refine ⟨price, u, rfl, rfl, hc, ?_, ?_⟩
        · exact (congrArg Prod.fst (Except.ok.inj h)).symm
        · exact (congrArg Prod.snd (Except.ok.inj h)).symm
      · rw [if_neg hc] at h; cases h

/-- Inversion for a successful SELL. -/
theorem sell_ok_elim {prices : List (String × ℚ)} {bal : Balance}
    {symbol : String} {amount : ℚ} {bal2 : Balance} {f : Fill}
    (h : place_market_order prices bal symbol "SELL" amount = .ok (bal2, f)) :
    ∃ price u b1, get_price prices symbol = .ok price ∧
      amount ≤ getD bal (pyReplace symbol "USDT" "") ∧
      lookupK bal "USDT" = some u ∧
      lookupK (setK bal "USDT" (u + price * amount)) (pyReplace symbol "USDT" "") = some b1 ∧
      bal2 = setK (setK bal "USDT" (u + price * amount)) (pyReplace symbol "USDT" "")
          (b1 - amount) ∧
      f = ⟨symbol, "SELL", amount, price⟩ := by
  unfold place_market_order at h
  cases hgp : get_price prices symbol with
  | error e => rw [hgp] at h; cases h
  | ok price =>
    rw [hgp] at h
    simp only [] at h
    rw [if_true] at h
    by_cases hq : amount ≤ getD bal (pyReplace symbol "USDT" "")
    · rw [if_pos hq] at h
      cases hu : lookupK bal "USDT" with
      | none => rw [hu] at h; simp only [] at h; cases h
      | some u =>
        rw [hu] at h
        simp only [] at h
        cases hb1 : lookupK (setK bal "USDT" (u + price * amount))
            (pyReplace symbol "USDT" "") with
        | none => rw [hb1] at h; simp only [] at h; cases h
        | some b1 =>
          rw [hb1] at h
          simp only [] at h
          refine ⟨price, u, b1, rfl, hq, rfl, hb1, ?_, ?_⟩
          · exact (congrArg Prod.fst (Except.ok.inj h)).symm
          · exact (congrArg Prod.snd (Except.ok.inj h)).symm
    · rw [if_neg hq] at h
      cases h

/-- A successful mock order saves a dict in which every balance is still
nonnegative, provided the prices are nonnegative and the traded amount is
nonnegative. -/
theorem place_ok_nonneg {prices : List (String × ℚ)} {bal : Balance}
    {symbol side : String} {amount : ℚ} {bal2 : Balance} {f : Fill}
    (hps : NonnegEntries prices) (hb : NonnegEntries bal) (ha : 0 ≤ amount)
    (h : place_market_order prices bal symbol side amount = .ok (bal2, f)) :
    NonnegEntries bal2 := by
  unfold place_market_order at h
  cases hgp : get_price prices symbol with
  | error e => rw [hgp] at h; cases h
  | ok price =>
    have hp : 0 ≤ price := get_price_nonneg hps hgp
    rw [hgp] at h
    simp only [] at h
    by_cases hbuy : side = "BUY"
    · rw [if_pos hbuy] at h
      cases hu : lookupK bal "USDT" with
      | none => rw [hu] at h; simp only [] at h; cases h
      | some u =>
        rw [hu] at h
        simp only [] at h
        have hu0 : 0 ≤ u := by simpa using hb _ (lookupK_mem hu)
        by_cases hc : price * amount ≤ u
        · rw [if_pos hc] at h
          have hbal2 : bal2 = setK (setK bal "USDT" (u - price * amount))
              (pyReplace symbol "USDT" "")
              (getD (setK bal "USDT" (u - price * amount))
                (pyReplace symbol "USDT" "") + amount) :=
            (congrArg Prod.fst (Except.ok.inj h)).symm
          subst hbal2
          have h1 : NonnegEntries (setK bal "USDT" (u - price * amount)) :=
            nonnegEntries_setK hb (by linarith) _
          exact nonnegEntries_setK h1
            (by have := getD_nonneg h1 (pyReplace symbol "USDT" ""); linarith) _
        · rw [if_neg hc] at h; cases h
    · rw [if_neg hbuy] at h
      by_cases hsell : side = "SELL"
      · rw [if_pos hsell] at h
        by_cases hq : amount ≤ getD bal (pyReplace symbol "USDT" "")
        · rw [if_pos hq] at h
          cases hu : lookupK bal "USDT" with
          | none => rw [hu] at h; simp only [] at h; cases h
          | some u =>
            rw [hu] at h
            simp only [] at h
            have hu0 : 0 ≤ u := by simpa using hb _ (lookupK_mem hu)
            cases hb1 : lookupK (setK bal "USDT" (u + price * amount))
                (pyReplace symbol "USDT" "") with
            | none => rw [hb1] at h; simp only [] at h; cases h
            | some b1 =>
              rw [hb1] at h
              simp only [] at h
              have hbal2 : bal2 = setK (setK bal "USDT" (u + price * amount))
                  (pyReplace symbol "USDT" "") (b1 - amount) :=
                (congrArg Prod.fst (Except.ok.inj h)).symm
              subst hbal2
              have h1 : NonnegEntries (setK bal "USDT" (u + price * amount)) :=
                nonnegEntries_setK hb (by positivity) _
              have hb1amt : amount ≤ b1 := by
                rw [lookupK_setK] at hb1
                by_cases hUB : "USDT" = pyReplace symbol "USDT" ""
                · rw [if_pos hUB] at hb1
                  have : u + price * amount = b1 := by
                    simpa using hb1
                  have hgu : getD bal (pyReplace symbol "USDT" "") = u := by
                    rw [← hUB]; exact getD_eq_of_lookupK hu
                  rw [hgu] at hq
                  nlinarith [mul_nonneg hp ha]
                · rw [if_neg hUB] at hb1
                  exact hq.trans_eq (getD_eq_of_lookupK hb1)
              exact nonnegEntries_setK h1 (by linarith) _
        · rw [if_neg hq] at h; cases h
      · rw [if_neg hsell] at h; cases h

/-- One persisted ledger step keeps every balance nonnegative when the traded
amount is nonnegative. -/
theorem stepLedger_nonneg {prices : List (String × ℚ)} {bal : Balance}
    {op : LedgerOp} (hps : NonnegEntries prices) (hb : NonnegEntries bal)
    (ha : 0 ≤ op.2.2) : NonnegEntries (stepLedger prices bal op) := by
  unfold stepLedger
  cases h : place_market_order prices bal op.1 op.2.1 op.2.2 with
  | error e => rw [persistedAfter_error]; exact hb
  | ok bf =>
    obtain ⟨bal2, f⟩ := bf
    rw [persistedAfter_ok]
    exact place_ok_nonneg hps hb ha h

/-! Section: Claim theorems -/

/-- C7: For every starting balance state, quantity and price list at
which both operations succeed (hence with no price movement between them), a
BUY fill of `qty` followed by a SELL fill of `qty` restores the original
balances exactly: afterwards every asset maps to the same quantity as
before. -/
theorem c7_buy_sell_roundtrip
    {prices : List (String × ℚ)} {bal : Balance} {symbol : String} {q : ℚ}
    {bal1 bal2 : Balance} {f1 f2 : Fill}
    (h1 : place_market_order prices bal symbol "BUY" q = .ok (bal1, f1))
    (h2 : place_market_order prices bal1 symbol "SELL" q = .ok (bal2, f2)) :
    ∀ a, getD bal2 a = getD bal a := by
  obtain ⟨p, u, hgp, hu, hc, hbal1, hf1⟩ := buy_ok_elim h1
  obtain ⟨p', u', b1, hgp', hq, hu', hb1, hbal2, hf2⟩ := sell_ok_elim h2
  rw [hgp] at hgp'
  cases Except.ok.inj hgp'
  subst hbal1
  subst hbal2
  intro a
  generalize hbase : pyReplace symbol "USDT" "" = base at hq hu' hb1 ⊢
  by_cases hBU : base = "USDT"
  · subst hBU
    rw [lookupK_setK, if_pos rfl] at hu'
    have hu'v : getD (setK bal "USDT" (u - p * q)) "USDT" + q = u' :=
      Option.some.inj hu'
    rw [getD_setK, if_pos rfl] at hu'v
    rw [lookupK_setK, if_pos rfl] at hb1
    have hb1v : u' + p * q = b1 := Option.some.inj hb1
    rw [getD_setK]
    by_cases ha : "USDT" = a
    · rw [if_pos ha, ← ha, getD_eq_of_lookupK hu]
      linarith
    · rw [if_neg ha, getD_setK, if_neg ha, getD_setK, if_neg ha, getD_setK,
        if_neg ha]
  · have hUB : ¬("USDT" = base) := fun h => hBU h.symm
    rw [lookupK_setK, if_neg hBU, lookupK_setK, if_pos rfl] at hu'
    have hu'v : u - p * q = u' := Option.some.inj hu'
    rw [lookupK_setK, if_neg hUB, lookupK_setK, if_pos rfl] at hb1
    have hb1v : getD (setK bal "USDT" (u - p * q)) base + q = b1 :=
      Option.some.inj hb1
    rw [getD_setK, if_neg hUB] at hb1v
    rw [getD_setK]
    by_cases hba : base = a
    · rw [if_pos hba, ← hba]
      linarith
    · rw [if_neg hba, getD_setK]
      by_cases hUa : "USDT" = a
      · rw [if_pos hUa, ← hUa, getD_eq_of_lookupK hu]
        linarith
      · rw [if_neg hUa, getD_setK, if_neg hba, getD_setK, if_neg hUa]

/-- Witness for C7 at the shipped mock data: BUY then SELL of `0.01` BTC at
price `68000` brings the `BTC` balance back to its initial value. -/
theorem c7_witness :
    getD [("USDT", (1000 : ℚ)), ("BTC", 0), ("ETH", 0)] "BTC" =
      getD INITIAL_BALANCE "BTC" := by
  have h1 : place_market_order DEFAULT_PRICES INITIAL_BALANCE "BTCUSDT" "BUY" (1 / 100) =
      .ok ([("USDT", 320), ("BTC", 1 / 100), ("ETH", 0)],
        ⟨"BTCUSDT", "BUY", 1 / 100, 68000⟩) := by
    have e1 : pyUpper "BTCUSDT" = "BTCUSDT" := by decide
    have e2 : pyReplace "BTCUSDT" "USDT" "" = "BTC" := by decide
    simp [place_market_order, get_price, DEFAULT_PRICES, INITIAL_BALANCE, e1, e2,
      lookupK, setK, getD]
    norm_num
  have h2 : place_market_order DEFAULT_PRICES
      [("USDT", (320 : ℚ)), ("BTC", 1 / 100), ("ETH", 0)] "BTCUSDT" "SELL" (1 / 100) =
      .ok ([("USDT", 1000), ("BTC", 0), ("ETH", 0)],
        ⟨"BTCUSDT", "SELL", 1 / 100, 68000⟩) := by
    have e1 : pyUpper "BTCUSDT" = "BTCUSDT" := by decide
    have e2 : pyReplace "BTCUSDT" "USDT" "" = "BTC" := by decide
    simp [place_market_order, get_price, DEFAULT_PRICES, e1, e2,
      lookupK, setK, getD]
    norm_num
  exact c7_buy_sell_roundtrip h1 h2 "BTC"

/-- C5 (amended): For every sequence of ledger operations with
*nonnegative* amounts, against a price list with nonnegative prices and
starting from a state with no negative balance, every asset balance in the
persisted state is still nonnegative after each operation: successful
operations preserve the invariant and failing ones leave the state
untouched. -/
theorem c5_ledger_nonneg
    {prices : List (String × ℚ)} {bal : Balance} {ops : List LedgerOp}
    (hps : NonnegEntries prices) (hb : NonnegEntries bal)
    (hops : ∀ op ∈ ops, 0 ≤ op.2.2) : NonnegEntries (runOps prices bal ops) := by
  induction ops generalizing bal with
  | nil => simpa [runOps] using hb
  | cons op rest ih =>
    simp only [runOps]
    exact ih (stepLedger_nonneg hps hb (hops op (by simp)))
      (fun o ho => hops o (by simp [ho]))

/-- Witness for C5 (amended): the shipped scenario BUY `0.01` BTC from the
initial mock data leaves no negative balance. -/
theorem c5_witness :
    NonnegEntries (runOps DEFAULT_PRICES INITIAL_BALANCE [("BTCUSDT", "BUY", 1 / 100)]) := by
  refine c5_ledger_nonneg ?_ ?_ ?_
  · intro kv hkv
    simp [DEFAULT_PRICES] at hkv
    rcases hkv with h | h | h <;> simp [h]
  · intro kv hkv
    simp [INITIAL_BALANCE] at hkv
    rcases hkv with h | h | h <;> simp [h]
  · intro op hop
    simp at hop
    simp [hop]

/-- C5, counterexample to the claim as stated.  The claim quantifies over
*any* amount, but the CLI accepts negative amounts and the mock ledger's
balance checks pass vacuously for them: selling `-1` BTC from the initial
state *succeeds* and leaves the persisted USDT balance at `-67000 < 0`. -/
theorem c5_counterexample :
    place_market_order DEFAULT_PRICES INITIAL_BALANCE "BTCUSDT" "SELL" (-1) =
      .ok ([("USDT", -67000), ("BTC", 1), ("ETH", 0)],
        ⟨"BTCUSDT", "SELL", -1, 68000⟩) ∧
    getD [("USDT", (-67000 : ℚ)), ("BTC", 1), ("ETH", 0)] "USDT" < 0 := by
  constructor
  · have e1 : pyUpper "BTCUSDT" = "BTCUSDT" := by decide
    have e2 : pyReplace "BTCUSDT" "USDT" "" = "BTC" := by decide
    simp [place_market_order, get_price, DEFAULT_PRICES, INITIAL_BALANCE, e1, e2,
      lookupK, setK, getD]
    norm_num
  · simp [getD, lookupK]

/-- C3 (amended): A BUY or SELL whose debit side would go negative fails
without saving: with the USDT key present (as in every ledger-initialised
state) a BUY short of USDT raises the `InsufficientBalance`-class
`ValueError`, a SELL short of the base asset always raises its
`InsufficientBalance`-class `ValueError`, a BUY on a dict *missing* the USDT
key raises `KeyError` instead, and in every raising case the persisted state
equals the state before the call. -/
theorem c3_failing_debit_atomic
    {prices : List (String × ℚ)} {bal : Balance} {symbol : String} {amount p : ℚ}
    (hgp : get_price prices symbol = .ok p) :
    (∀ u, lookupK bal "USDT" = some u → u < p * amount →
        place_market_order prices bal symbol "BUY" amount =
          .error (.valueError "Not enough USDT balance.")) ∧
    (lookupK bal "USDT" = none →
        place_market_order prices bal symbol "BUY" amount =
          .error (.keyError "USDT")) ∧
    (getD bal (pyReplace symbol "USDT" "") < amount →
        place_market_order prices bal symbol "SELL" amount =
          .error (.valueError ("Not enough " ++ pyReplace symbol "USDT" "" ++ " balance."))) ∧
    (∀ side e, place_market_order prices bal symbol side amount = .error e →
        persistedAfter bal (place_market_order prices bal symbol side amount) = bal) := by
  refine ⟨?_, ?_, ?_, ?_⟩
  · intro u hu hlt
    unfold place_market_order
    rw [hgp]
    simp only []
    rw [if_true, hu]
    simp only []
    rw [if_neg (not_le.mpr hlt)]
  · intro hnone
    unfold place_market_order
    rw [hgp]
    simp only []
    rw [if_true, hnone]
  · intro hlt
    unfold place_market_order
    rw [hgp]
    simp only []
    rw [if_neg (show ¬("SELL" = "BUY") by decide), if_true, if_neg (not_le.mpr hlt)]
  · intro side e h
    rw [h]
    rfl

/-- Witness for C3 (amended) at concrete data: selling `1` BTC against the
initial mock balance (`BTC = 0`) fails with the `Not enough BTC balance.`
`ValueError` and the persisted state is unchanged. -/
theorem c3_witness :
    place_market_order DEFAULT_PRICES INITIAL_BALANCE "BTCUSDT" "SELL" 1 =
      .error (.valueError "Not enough BTC balance.") ∧
    persistedAfter INITIAL_BALANCE
      (place_market_order DEFAULT_PRICES INITIAL_BALANCE "BTCUSDT" "SELL" 1) =
      INITIAL_BALANCE := by
  have hgp : get_price DEFAULT_PRICES "BTCUSDT" = .ok 68000 := by
    have e1 : pyUpper "BTCUSDT" = "BTCUSDT" := by decide
    simp [get_price, DEFAULT_PRICES, e1]
  have e2 : pyReplace "BTCUSDT" "USDT" "" = "BTC" := by decide
  have hlt : getD INITIAL_BALANCE (pyReplace "BTCUSDT" "USDT" "") < 1 := by
    rw [e2]
    simp [getD, lookupK, INITIAL_BALANCE]
  have h := (@c3_failing_debit_atomic DEFAULT_PRICES INITIAL_BALANCE "BTCUSDT" 1 68000
    hgp).2.2.1 hlt
  rw [e2] at h
  exact ⟨h, ((@c3_failing_debit_atomic DEFAULT_PRICES INITIAL_BALANCE "BTCUSDT" 1 68000
    hgp).2.2.2 "SELL" _ h)⟩

/-- C3, counterexample to the claim as stated.  On a starting dict with
no `"USDT"` key, a BUY whose debit side would go negative
(`0 - 68000 · 1 < 0` under the ledger's `get`-with-default reading) fails
with `KeyError`, not with the `InsufficientBalance` `ValueError`; the claim's
"for every starting balance state … fails with InsufficientBalance" is
therefore false at this state. -/
theorem c3_counterexample :
    place_market_order DEFAULT_PRICES [("BTC", 1)] "BTCUSDT" "BUY" 1 =
      .error (.keyError "USDT") ∧
    place_market_order DEFAULT_PRICES [("BTC", 1)] "BTCUSDT" "BUY" 1 ≠
      .error (.valueError "Not enough USDT balance.") ∧
    getD [("BTC", (1 : ℚ))] "USDT" - 68000 * 1 < 0 := by
  have e1 : pyUpper "BTCUSDT" = "BTCUSDT" := by decide
  have hkey : place_market_order DEFAULT_PRICES [("BTC", 1)] "BTCUSDT" "BUY" 1 =
      .error (.keyError "USDT") := by
    simp [place_market_order, get_price, DEFAULT_PRICES, e1, lookupK]
  refine ⟨hkey, ?_, ?_⟩
  · intro hmsg
    rw [hkey] at hmsg
    simp at hmsg
  · simp [getD, lookupK]

/-- C10: Calling the mock `place_market_order` with a side that is
neither `"BUY"` nor `"SELL"` raises a `ValueError` (either the unknown-symbol
one from `get_price` or `Invalid side. Use BUY or SELL.`), and the persisted
balance state is unchanged because the save only happens after a valid-side
branch completes. -/
theorem c10_invalid_side
    {prices : List (String × ℚ)} {bal : Balance} {symbol side : String} {amount : ℚ}
    (h1 : side ≠ "BUY") (h2 : side ≠ "SELL") :
    isValueError (place_market_order prices bal symbol side amount) ∧
    persistedAfter bal (place_market_order prices bal symbol side amount) = bal := by
  have key : ∃ msg, place_market_order prices bal symbol side amount =
      .error (.valueError msg) := by
    unfold place_market_order
    cases hgp : get_price prices symbol with
    | error e =>
      obtain ⟨m, hm⟩ := get_price_error_shape hgp
      exact ⟨m, by subst hm; rfl⟩
    | ok price =>
      refine ⟨"Invalid side. Use BUY or SELL.", ?_⟩
      simp only []
      rw [if_neg h1, if_neg h2]
  obtain ⟨msg, hmsg⟩ := key
  exact ⟨by rw [hmsg]; trivial, by rw [hmsg]; rfl⟩

/-- Witness for C10: side `"HOLD"` on the initial mock data. -/
theorem c10_witness :
    isValueError (place_market_order DEFAULT_PRICES INITIAL_BALANCE "BTCUSDT" "HOLD" 1) ∧
    persistedAfter INITIAL_BALANCE
      (place_market_order DEFAULT_PRICES INITIAL_BALANCE "BTCUSDT" "HOLD" 1) =
      INITIAL_BALANCE :=
  c10_invalid_side (by decide) (by decide)

/-- Every request submitted by `set_risk_management` carries the side
`SELL if entry_side == SIDE_BUY else BUY`. -/
theorem set_risk_management_side (symbol entry_side : String) (slp tpp : ℚ)
    (slResp tpResp : Except PyError OrderResult) :
    ∀ r ∈ (set_risk_management symbol entry_side slp tpp slResp tpResp).1,
      r.side = if entry_side = "BUY" then "SELL" else "BUY" := by
  intro r hr
  cases slResp with
  | error e =>
    simp [set_risk_management] at hr
    rw [hr]
  | ok a =>
    cases tpResp with
    | error e =>
      simp [set_risk_management] at hr
      rcases hr with h | h <;> rw [h]
    | ok b =>
      simp [set_risk_management] at hr
      rcases hr with h | h <;> rw [h]

/-- C8: On every call to `set_risk_management`, the exit side is the
inverse of the entry side, and every submitted exit order carries that same
exit side. -/
theorem c8_exit_side_inverse (symbol entry_side : String) (slp tpp : ℚ)
    (slResp tpResp : Except PyError OrderResult) :
    (entry_side = "BUY" →
      ∀ r ∈ (set_risk_management symbol entry_side slp tpp slResp tpResp).1,
        r.side = "SELL") ∧
    (entry_side = "SELL" →
      ∀ r ∈ (set_risk_management symbol entry_side slp tpp slResp tpResp).1,
        r.side = "BUY") := by
  constructor
  · intro h r hr
    rw [set_risk_management_side symbol entry_side slp tpp slResp tpResp r hr, h,
      if_pos rfl]
  · intro h r hr
    rw [set_risk_management_side symbol entry_side slp tpp slResp tpResp r hr, h,
      if_neg (by decide)]

/-- Witness for C8: with entry side `BUY` and both submissions succeeding,
the stop-loss request carries side `SELL`. -/
theorem c8_witness :
    (⟨"BTCUSDT", "SELL", "STOP_MARKET", pyRound 2 100, true, true⟩ : ExitRequest).side =
      "SELL" :=
  (c8_exit_side_inverse "BTCUSDT" "BUY" 100 200 (.ok 1) (.ok 2)).1 rfl _
    (by simp [set_risk_management])

/-- C2 (amended): The two exit submissions of `set_risk_management` are
*not* independent: both sit in one `try` block.  If the stop-loss submission
raises, the function returns `None` and the take-profit order is never even
submitted; if the stop-loss succeeds and the take-profit raises, the function
still returns `None`, discarding the stop-loss result; only when both succeed
does the caller get both results. -/
theorem c2_exits_all_or_nothing (symbol entry_side : String) (slp tpp : ℚ)
    (slResp tpResp : Except PyError OrderResult) :
    (∀ e, slResp = .error e →
        (set_risk_management symbol entry_side slp tpp slResp tpResp).1.length = 1 ∧
        (set_risk_management symbol entry_side slp tpp slResp tpResp).2 = none) ∧
    (∀ a e, slResp = .ok a → tpResp = .error e →
        (set_risk_management symbol entry_side slp tpp slResp tpResp).1.length = 2 ∧
        (set_risk_management symbol entry_side slp tpp slResp tpResp).2 = none) ∧
    (∀ a b, slResp = .ok a → tpResp = .ok b →
        (set_risk_management symbol entry_side slp tpp slResp tpResp).2 = some (a, b) ∧
        (set_risk_management symbol entry_side slp tpp slResp tpResp).1.length = 2) := by
  refine ⟨?_, ?_, ?_⟩
  · intro e he
    subst he
    simp [set_risk_management]
  · intro a e ha he
    subst ha
    subst he
    simp [set_risk_management]
  · intro a b ha hb
    subst ha
    subst hb
    simp [set_risk_management]

/-- Witness for C2 (amended): stop-loss submission raises, take-profit would
have succeeded — one submitted request, `None` returned. -/
theorem c2_witness :
    (set_risk_management "BTCUSDT" "BUY" 100 200
        (.error (.apiError "boom")) (.ok 7)).1.length = 1 ∧
    (set_risk_management "BTCUSDT" "BUY" 100 200
        (.error (.apiError "boom")) (.ok 7)).2 = none :=
  (c2_exits_all_or_nothing "BTCUSDT" "BUY" 100 200
    (.error (.apiError "boom")) (.ok 7)).1 _ rfl

/-- C2, counterexample to the claim as stated.  When exactly the
stop-loss submission fails, the take-profit's result is *not* returned (the
call returns `None`) and the take-profit order is not even submitted — the
whole call aborts instead of marking one side as an error. -/
theorem c2_counterexample :
    (set_risk_management "BTCUSDT" "BUY" 100 200
        (.error (.apiError "Margin is insufficient")) (.ok 42)).2 = none ∧
    (set_risk_management "BTCUSDT" "BUY" 100 200
        (.error (.apiError "Margin is insufficient")) (.ok 42)).1.length = 1 := by
  constructor <;> simp [set_risk_management]

/-- C9: For every entry price and stop/take percentages (positive, as
the data model requires), the run of the workflow submits a stop-loss
trigger at `round(entry_price * (1 - stop_pct), 2)` and — whenever it gets
that far — a take-profit trigger at `round(entry_price * (1 + take_pct), 2)`;
every submitted exit is a `STOP_MARKET` order with `closePosition=True` and
`reduceOnly=True` on the inverted (SELL) side. -/
theorem c9_exit_levels (symbol : String) (r s t l b : ℚ) (o : OrderResult)
    (slResp tpResp : Except PyError OrderResult) (p : ℚ)
    (hp : 0 < p) (hs : 0 < s) :
    (mainRun symbol r s t l (some b) (.ok p) (.ok o) slResp tpResp).exitRequests =
        [⟨symbol, "SELL", "STOP_MARKET", pyRound 2 (p * (1 - s)), true, true⟩] ∨
    (mainRun symbol r s t l (some b) (.ok p) (.ok o) slResp tpResp).exitRequests =
        [⟨symbol, "SELL", "STOP_MARKET", pyRound 2 (p * (1 - s)), true, true⟩,
          ⟨symbol, "SELL", "STOP_MARKET", pyRound 2 (p * (1 + t)), true, true⟩] := by
  have hsd : p * s ≠ 0 := ne_of_gt (mul_pos hp hs)
  unfold mainRun calculate_position_size_my
  simp only []
  rw [if_neg hsd]
  simp only []
  cases slResp with
  | error e =>
    left
    simp [set_risk_management]
  | ok a =>
    cases tpResp with
    | error e =>
      right
      simp [set_risk_management]
    | ok c =>
      right
      simp [set_risk_management]

/-- Witness for C9 at the shipped configuration (`price 68000`, stop `1 %`,
take-profit `2 %`, both submissions succeeding). -/
theorem c9_witness :
    (mainRun "BTCUSDT" 1 (1 / 100) (2 / 100) 10 (some 1000) (.ok 68000)
        (.ok 1) (.ok 2) (.ok 3)).exitRequests =
      [⟨"BTCUSDT", "SELL", "STOP_MARKET", pyRound 2 (68000 * (1 - 1 / 100)), true, true⟩] ∨
    (mainRun "BTCUSDT" 1 (1 / 100) (2 / 100) 10 (some 1000) (.ok 68000)
        (.ok 1) (.ok 2) (.ok 3)).exitRequests =
      [⟨"BTCUSDT", "SELL", "STOP_MARKET", pyRound 2 (68000 * (1 - 1 / 100)), true, true⟩,
        ⟨"BTCUSDT", "SELL", "STOP_MARKET", pyRound 2 (68000 * (1 + 2 / 100)), true, true⟩] :=
  c9_exit_levels "BTCUSDT" 1 (1 / 100) (2 / 100) 10 1000 1 (.ok 2) (.ok 3) 68000
    (by norm_num) (by norm_num)

/-- C6: Exit orders are never submitted without a successful entry:
every run of the workflow in which `place_market_order` does not return a
successful entry result (the sizing step raised, or the entry call was
rejected and swallowed into `None`) makes zero calls to
`set_risk_management`, submits no exit request, and is a `Failed` session in
the spec's state machine. -/
theorem c6_no_exits_without_entry (symbol : String) (r s t l : ℚ)
    (balance : Option ℚ) (markPrice : Except PyError ℚ)
    (entryResp slResp tpResp : Except PyError OrderResult)
    (h : (mainRun symbol r s t l balance markPrice entryResp slResp tpResp).entryOrder =
      none) :
    (mainRun symbol r s t l balance markPrice entryResp slResp tpResp).srmCalls = 0 ∧
    (mainRun symbol r s t l balance markPrice entryResp slResp tpResp).exitRequests = [] ∧
    (mainRun symbol r s t l balance markPrice entryResp slResp tpResp).riskOrders = none ∧
    specSessionState (mainRun symbol r s t l balance markPrice entryResp slResp tpResp) =
      .Failed := by
  cases hcps : calculate_position_size_my balance markPrice r s l with
  | error e => simp [mainRun, specSessionState, hcps]
  | ok qp =>
    cases entryResp with
    | error e => simp [mainRun, specSessionState, hcps]
    | ok o =>
      exfalso
      simp [mainRun, hcps] at h

/-- Witness for C6: entry order rejected by the exchange at the shipped
configuration. -/
theorem c6_witness :
    (mainRun "BTCUSDT" 1 (1 / 100) (2 / 100) 10 (some 1000) (.ok 68000)
        (.error (.apiError "rejected")) (.ok 1) (.ok 2)).srmCalls = 0 ∧
    (mainRun "BTCUSDT" 1 (1 / 100) (2 / 100) 10 (some 1000) (.ok 68000)
        (.error (.apiError "rejected")) (.ok 1) (.ok 2)).exitRequests = [] ∧
    (mainRun "BTCUSDT" 1 (1 / 100) (2 / 100) 10 (some 1000) (.ok 68000)
        (.error (.apiError "rejected")) (.ok 1) (.ok 2)).riskOrders = none ∧
    specSessionState (mainRun "BTCUSDT" 1 (1 / 100) (2 / 100) 10 (some 1000) (.ok 68000)
        (.error (.apiError "rejected")) (.ok 1) (.ok 2)) = .Failed :=
  c6_no_exits_without_entry "BTCUSDT" 1 (1 / 100) (2 / 100) 10 (some 1000) (.ok 68000)
    (.error (.apiError "rejected")) (.ok 1) (.ok 2)
    (by simp [mainRun, calculate_position_size_my])

/-- C1 (amended): For positive finite parameters, the
`my_trading_bot.py` sizer returns exactly
`(balance * risk_percent / 100 * leverage) / (price * stop_loss_percent)`
rounded to 3 decimal places, while the `trading_bot.py` sizer returns the
same quotient *unrounded*. -/
theorem c1_sizer_formula (b r s l p : ℚ)
    (hb : 0 < b) (hr : 0 < r) (hp : 0 < p) (hs : 0 < s) (hl : 0 < l)
    (prices : List (String × ℚ)) (bal : Balance) (symbol : String)
    (hgp : get_price prices symbol = .ok p) :
    calculate_position_size_my (some b) (.ok p) r s l =
      .ok (pyRound 3 (b * r / 100 * l / (p * s)), p) ∧
    calculate_position_size_tb prices bal symbol r s l =
      .ok (getD bal "USDT" * r / 100 * l / (p * s), p) := by
  have hsd : p * s ≠ 0 := ne_of_gt (mul_pos hp hs)
  constructor
  · unfold calculate_position_size_my
    simp only []
    rw [if_neg hsd]
    have hnum : b * (r / 100) * l = b * r / 100 * l := by ring
    rw [hnum]
  · unfold calculate_position_size_tb
    rw [hgp]
    simp only []
    rw [if_neg hsd]
    have hnum : getD bal "USDT" * (r / 100) * l = getD bal "USDT" * r / 100 * l := by
      ring
    rw [hnum]

/-- Witness for C1 (amended) at the spec's own scenario: balance `1000`,
risk `1 %`, stop `0.01`, leverage `10`, price `68000`. -/
theorem c1_witness :
    calculate_position_size_my (some 1000) (.ok 68000) 1 (1 / 100) 10 =
      .ok (pyRound 3 (1000 * 1 / 100 * 10 / (68000 * (1 / 100))), 68000) ∧
    calculate_position_size_tb DEFAULT_PRICES INITIAL_BALANCE "BTCUSDT" 1 (1 / 100) 10 =
      .ok (getD INITIAL_BALANCE "USDT" * 1 / 100 * 10 / (68000 * (1 / 100)), 68000) :=
  c1_sizer_formula 1000 1 (1 / 100) 10 68000 (by norm_num) (by norm_num) (by norm_num)
    (by norm_num) (by norm_num) DEFAULT_PRICES INITIAL_BALANCE "BTCUSDT"
    (by have e1 : pyUpper "BTCUSDT" = "BTCUSDT" := by decide
        simp [get_price, DEFAULT_PRICES, e1])

/-- C1, counterexample to the claim as stated.  At the spec's scenario
inputs, the `trading_bot.py` sizer does not round: it returns
`5/34 = 0.14705…`, not the 3-decimal rounding `0.147` the claim asserts. -/
theorem c1_counterexample :
    calculate_position_size_tb DEFAULT_PRICES INITIAL_BALANCE "BTCUSDT" 1 (1 / 100) 10 ≠
      .ok (pyRound 3 (1000 * 1 / 100 * 10 / (68000 * (1 / 100))), 68000) := by
  have hgp : get_price DEFAULT_PRICES "BTCUSDT" = .ok 68000 := by
    have e1 : pyUpper "BTCUSDT" = "BTCUSDT" := by decide
    simp [get_price, DEFAULT_PRICES, e1]
  have hval : calculate_position_size_tb DEFAULT_PRICES INITIAL_BALANCE "BTCUSDT" 1
      (1 / 100) 10 = .ok (5 / 34, 68000) := by
    unfold calculate_position_size_tb
    rw [hgp]
    simp only []
    rw [if_neg (by norm_num)]
    norm_num [getD, lookupK, INITIAL_BALANCE]
  have hround : pyRound 3 (1000 * 1 / 100 * 10 / (68000 * (1 / 100))) = 147 / 1000 := by
    norm_num [pyRound, pyRoundInt]
  rw [hval, hround]
  simp only [ne_eq, Except.ok.injEq, Prod.mk.injEq]
  intro hcontra
  have : (5 : ℚ) / 34 = 147 / 1000 := hcontra.1
  norm_num at this

/-- C4 (amended): The sizer of `my_trading_bot.py` performs no explicit
parameter validation.  A missing balance is raised as a `ValueError` and a
mark-price fetch failure propagates (nothing is swallowed); when
`current_price * stop_loss_pct = 0` the division raises `ZeroDivisionError`;
but for every other nonpositive `stop_loss_percent`, `current_price` or
`leverage` the function *succeeds* and returns a (possibly zero or negative)
quantity instead of failing with an `InvalidParameter` error. -/
theorem c4_sizer_no_validation (bo : Option ℚ) (mp : Except PyError ℚ) (r s l : ℚ) :
    (bo = none → calculate_position_size_my bo mp r s l =
      .error (.valueError "Failed to get account balance")) ∧
    (∀ b e, bo = some b → mp = .error e →
      calculate_position_size_my bo mp r s l = .error e) ∧
    (∀ b p, bo = some b → mp = .ok p → p * s = 0 →
      calculate_position_size_my bo mp r s l = .error .zeroDivisionError) ∧
    (∀ b p, bo = some b → mp = .ok p → p * s ≠ 0 →
      calculate_position_size_my bo mp r s l =
        .ok (pyRound 3 (b * (r / 100) * l / (p * s)), p)) := by
  refine ⟨?_, ?_, ?_, ?_⟩
  · intro h
    subst h
    rfl
  · intro b e hb he
    subst hb
    subst he
    rfl
  · intro b p hb hp hzero
    subst hb
    subst hp
    unfold calculate_position_size_my
    simp only []
    rw [if_pos hzero]
  · intro b p hb hp hnz
    subst hb
    subst hp
    unfold calculate_position_size_my
    simp only []
    rw [if_neg hnz]

/-- Witness for C4 (amended): a balance-fetch failure is raised as
`ValueError`, not swallowed. -/
theorem c4_witness :
    calculate_position_size_my none (.ok 68000) 1 (1 / 100) 10 =
      .error (.valueError "Failed to get account balance") :=
  (c4_sizer_no_validation none (.ok 68000) 1 (1 / 100) 10).1 rfl

/-- C4, counterexample to the claim as stated.  With
`stop_loss_percent = -0.01 ≤ 0` (price and leverage positive) the sizer does
*not* fail with `InvalidParameter`: it succeeds and returns the negative
quantity `-0.147`. -/
theorem c4_counterexample :
    calculate_position_size_my (some 1000) (.ok 68000) 1 (-(1 / 100)) 10 =
      .ok (-(147 / 1000), 68000) := by
  unfold calculate_position_size_my
  simp only []
  rw [if_neg (by norm_num)]
  have : pyRound 3 (1000 * (1 / 100) * 10 / (68000 * -(1 / 100))) = -(147 / 1000) := by
    norm_num [pyRound, pyRoundInt]
  rw [this]

example : pyReplace "BTCUSDT" "USDT" "" = "BTC" := by decide
example : pyReplace "USUSDTDT" "USDT" "" = "USDT" := by decide

example : get_price DEFAULT_PRICES "BTCUSDT" = .ok 68000 := by
  have h1 : pyUpper "BTCUSDT" = "BTCUSDT" := by decide
  simp [get_price, DEFAULT_PRICES, h1]

example :
    place_market_order DEFAULT_PRICES INITIAL_BALANCE "BTCUSDT" "BUY" (1 / 100) =
      .ok ([("USDT", 320), ("BTC", 1 / 100), ("ETH", 0)],
        ⟨"BTCUSDT", "BUY", 1 / 100, 68000⟩) := by
  have h1 : pyUpper "BTCUSDT" = "BTCUSDT" := by decide
  have h2 : pyReplace "BTCUSDT" "USDT" "" = "BTC" := by decide
  simp [place_market_order, get_price, DEFAULT_PRICES, INITIAL_BALANCE, h1, h2,
    lookupK, setK, getD]
  norm_num

end BinanceDemo
